import Mathlib

set_option autoImplicit false

/-!
Shallow embedding of the load-balancer simulation (mkelsay22/412project3).

Each C++ class becomes a Lean structure and each member function a Lean
function on that structure; mutation becomes explicit state passing, with
a `Bool × State` result where the C++ function returns `bool` and mutates.
C++ `int` is modelled as `Int`, `double` as `ℚ` (the values involved are
exact decimals and quotients of small integers), `std::queue`/`std::vector`
as `List` (front of the queue at the head).  The `arrivalTime` field of
`Request` (a wall-clock timestamp read by no core logic) is omitted.
-/

/-- Model of the Request class (src/Request.h, src/Request.cpp). -/
structure Request where
  clientIP : String
  requestType : String
  priority : Int
  processingTime : Int
  requestID : Int
  deriving DecidableEq

/-- Default constructor `Request()`. -/
def Request.defaultRequest : Request :=
  { clientIP := "0.0.0.0", requestType := "GET", priority := 5,
    processingTime := 10, requestID := 0 }

/-- `Request::setProcessingTime`. -/
def Request.setProcessingTime (r : Request) (time : Int) : Request :=
  { r with processingTime := time }

/-- Model of the RequestQueue class (src/RequestQueue.h, src/RequestQueue.cpp). -/
structure RequestQueue where
  requestQueue : List Request
  maxSize : Int
  totalRequestsAdded : Int
  totalRequestsRemoved : Int
  blockedIPs : List String
  deriving DecidableEq

/-- Default constructor `RequestQueue()`: maximum size 1000. -/
def RequestQueue.init : RequestQueue :=
  { requestQueue := [], maxSize := 1000, totalRequestsAdded := 0,
    totalRequestsRemoved := 0, blockedIPs := [] }

/-- `RequestQueue::isIPBlocked`. -/
def RequestQueue.isIPBlocked (q : RequestQueue) (ip : String) : Bool :=
  q.blockedIPs.contains ip

/-- `RequestQueue::getSize`. -/
def RequestQueue.getSize (q : RequestQueue) : Int :=
  (q.requestQueue.length : Int)

/-- `RequestQueue::isEmpty`. -/
def RequestQueue.isEmpty (q : RequestQueue) : Bool :=
  q.requestQueue.isEmpty

/-- `RequestQueue::isFull`. -/
def RequestQueue.isFull (q : RequestQueue) : Bool :=
  decide (q.getSize ≥ q.maxSize)

/-- `RequestQueue::addRequest`. -/
def RequestQueue.addRequest (q : RequestQueue) (request : Request) : Bool × RequestQueue :=
  if q.isIPBlocked request.clientIP then (false, q)
  else if q.isFull then (false, q)
  else (true, { q with requestQueue := q.requestQueue ++ [request],
                       totalRequestsAdded := q.totalRequestsAdded + 1 })

/-- `RequestQueue::getNextRequest`. -/
def RequestQueue.getNextRequest (q : RequestQueue) : Request × RequestQueue :=
  match q.requestQueue with
  | [] => (Request.defaultRequest, q)
  | r :: rest =>
      (r, { q with requestQueue := rest,
                   totalRequestsRemoved := q.totalRequestsRemoved + 1 })

/-- `RequestQueue::blockIP`. -/
def RequestQueue.blockIP (q : RequestQueue) (ip : String) : RequestQueue :=
  if q.isIPBlocked ip then q else { q with blockedIPs := q.blockedIPs ++ [ip] }

/-- `RequestQueue::unblockIP` (erases the first occurrence, as `std::find` + `erase`). -/
def RequestQueue.unblockIP (q : RequestQueue) (ip : String) : RequestQueue :=
  { q with blockedIPs := q.blockedIPs.erase ip }

/-- `RequestQueue::getUtilization`: `(size / maxSize) * 100`, and 0 when `maxSize == 0`. -/
def RequestQueue.getUtilization (q : RequestQueue) : ℚ :=
  if q.maxSize = 0 then 0 else ((q.getSize : ℚ) / (q.maxSize : ℚ)) * 100

/-- Model of the WebServer class (src/WebServer.h, src/WebServer.cpp). -/
structure WebServer where
  serverID : Int
  serverIP : String
  maxCapacity : Int
  currentLoad : Int
  requestQueue : List Request
  isActive : Bool
  totalRequestsProcessed : Int
  totalProcessingTime : Int
  deriving DecidableEq

/-- Parameterized constructor `WebServer(id, ip, capacity)`. -/
def WebServer.mkServer (id : Int) (ip : String) (capacity : Int) : WebServer :=
  { serverID := id, serverIP := ip, maxCapacity := capacity, currentLoad := 0,
    requestQueue := [], isActive := true, totalRequestsProcessed := 0,
    totalProcessingTime := 0 }

/-- `WebServer::canAcceptRequest`. -/
def WebServer.canAcceptRequest (s : WebServer) : Bool :=
  s.isActive && decide (s.currentLoad < s.maxCapacity)

/-- `WebServer::addRequest`. -/
def WebServer.addRequest (s : WebServer) (request : Request) : Bool × WebServer :=
  if !s.isActive || decide (s.currentLoad ≥ s.maxCapacity) then (false, s)
  else (true, { s with requestQueue := s.requestQueue ++ [request],
                       currentLoad := s.currentLoad + 1 })

/-- Result of one pass of the drain loop inside `WebServer::processCycle`:
the number of completed requests, the requests put back on the queue
(in order), and the sum of the stored `processingTime` values of the
completed requests (the amount added to `totalProcessingTime`). -/
structure CycleResult where
  completed : Int
  kept : List Request
  timeSum : Int
  deriving DecidableEq

/-- The while-loop body of `WebServer::processCycle`: each request has its
stored time decremented; a request whose decremented time is `≤ 0` is
completed (and contributes its pre-decrement stored time to `timeSum`),
otherwise it is kept with the decremented time. -/
def processQueueItems : List Request → CycleResult
  | [] => { completed := 0, kept := [], timeSum := 0 }
  | r :: rest =>
      let res := processQueueItems rest
      let remainingTime := r.processingTime - 1
      if remainingTime ≤ 0 then
        { completed := res.completed + 1, kept := res.kept,
          timeSum := res.timeSum + r.processingTime }
      else
        { completed := res.completed,
          kept := r.setProcessingTime remainingTime :: res.kept,
          timeSum := res.timeSum }

/-- `WebServer::processCycle`. -/
def WebServer.processCycle (s : WebServer) : Int × WebServer :=
  if s.isActive = false ∨ s.requestQueue = [] then (0, s)
  else
    let res := processQueueItems s.requestQueue
    (res.completed,
     { s with requestQueue := res.kept,
              currentLoad := s.currentLoad - res.completed,
              totalRequestsProcessed := s.totalRequestsProcessed + res.completed,
              totalProcessingTime := s.totalProcessingTime + res.timeSum })

/-- `WebServer::getUtilization`: `(currentLoad / maxCapacity) * 100`, 0 when capacity is 0. -/
def WebServer.getUtilization (s : WebServer) : ℚ :=
  if s.maxCapacity = 0 then 0 else ((s.currentLoad : ℚ) / (s.maxCapacity : ℚ)) * 100

/-- Iterate `WebServer::processCycle` (discarding the per-cycle counts). -/
def WebServer.runCycles (s : WebServer) : Nat → WebServer
  | 0 => s
  | k + 1 => ((s.runCycles k).processCycle).2

/-- Model of the LoadBalancer class (src/LoadBalancer.h, src/LoadBalancer.cpp).
`nextServerIndex` is a C++ `int` that is only ever assigned `0` or a value
`x % servers.size()`, so it is modelled as `Nat`. -/
structure LoadBalancer where
  servers : List WebServer
  requestQueue : RequestQueue
  nextServerIndex : Nat
  totalRequestsProcessed : Int
  totalProcessingTime : Int
  maxServers : Int
  minServers : Int
  loadThreshold : ℚ
  deriving DecidableEq

/-- `LoadBalancer::addServer`. -/
def LoadBalancer.addServer (lb : LoadBalancer) : Bool × LoadBalancer :=
  if (lb.servers.length : Int) ≥ lb.maxServers then (false, lb)
  else
    let serverID : Int := (lb.servers.length : Int) + 1
    let serverIP : String := "192.168.1." ++ toString serverID
    (true, { lb with servers := lb.servers ++ [WebServer.mkServer serverID serverIP 5] })

/-- `LoadBalancer::removeServer` (pops the last server). -/
def LoadBalancer.removeServer (lb : LoadBalancer) : Bool × LoadBalancer :=
  if (lb.servers.length : Int) ≤ lb.minServers then (false, lb)
  else (true, { lb with servers := lb.servers.dropLast })

/-- `LoadBalancer::addRequest` (the public `submit`). -/
def LoadBalancer.addRequest (lb : LoadBalancer) (request : Request) : Bool × LoadBalancer :=
  let res := lb.requestQueue.addRequest request
  (res.1, { lb with requestQueue := res.2 })

/-- `LoadBalancer::getQueueSize`. -/
def LoadBalancer.getQueueSize (lb : LoadBalancer) : Int :=
  lb.requestQueue.getSize

/-- `LoadBalancer::getSystemUtilization`: mean of the utilizations of the
active servers, 0 when there is no server or no active server. -/
def LoadBalancer.getSystemUtilization (lb : LoadBalancer) : ℚ :=
  if lb.servers.isEmpty then 0
  else
    let active := lb.servers.filter (fun s => s.isActive)
    if 0 < active.length then
      ((active.map WebServer.getUtilization).sum) / (active.length : ℚ)
    else 0

/-- `LoadBalancer::getAverageProcessingTime`. -/
def LoadBalancer.getAverageProcessingTime (lb : LoadBalancer) : ℚ :=
  if lb.totalRequestsProcessed = 0 then 0
  else (lb.totalProcessingTime : ℚ) / (lb.totalRequestsProcessed : ℚ)

/-- `LoadBalancer::checkLoadBalancing`: `avgUtilization` and `queueSize` are
computed once, before any scale change; the scale-down test re-reads
`servers.size()` after a possible scale-up, as in the source. -/
def LoadBalancer.checkLoadBalancing (lb : LoadBalancer) : LoadBalancer :=
  if lb.servers.isEmpty then lb
  else
    let avgUtilization := lb.getSystemUtilization / 100
    let queueSize := lb.getQueueSize
    let lb1 :=
      if (avgUtilization > lb.loadThreshold ∨ queueSize > 10) ∧
         (lb.servers.length : Int) < lb.maxServers
      then (lb.addServer).2 else lb
    if avgUtilization < lb.loadThreshold * (5 / 100) ∧ queueSize = 0 ∧
       (lb1.servers.length : Int) > lb.minServers + 3
    then (lb1.removeServer).2 else lb1

/-- The inner for-loop of `LoadBalancer::distributeRequests`: starting from
offset `i`, scan the servers at positions `(serverIndex + i) % size`; the
first that can accept receives the head of the admission queue and the
rotation cursor moves just past it.  `fuel` counts the remaining loop
iterations (the C++ loop runs `i = 0 .. size-1`).  When `canAcceptRequest`
holds but `addRequest` fails the dequeued request is dropped and the scan
continues, exactly as in the source. -/
def LoadBalancer.assignScan (lb : LoadBalancer) (serverIndex i : Nat) : Nat → Bool × LoadBalancer
  | 0 => (false, lb)
  | fuel + 1 =>
      let n := lb.servers.length
      let currentIndex := (serverIndex + i) % n
      if h : currentIndex < n then
        let srv := lb.servers.get ⟨currentIndex, h⟩
        if srv.canAcceptRequest then
          let res := lb.requestQueue.getNextRequest
          let res2 := srv.addRequest res.1
          if res2.1 then
            (true, { lb with servers := lb.servers.set currentIndex res2.2,
                             requestQueue := res.2,
                             nextServerIndex := (currentIndex + 1) % n })
          else
            LoadBalancer.assignScan { lb with requestQueue := res.2 } serverIndex (i + 1) fuel
        else
          LoadBalancer.assignScan lb serverIndex (i + 1) fuel
      else (false, lb)

/-- The while-loop of `LoadBalancer::distributeRequests`; `fuel` is
`maxAttempts - attempts`. -/
def LoadBalancer.distributeLoop (lb : LoadBalancer) : Nat → LoadBalancer
  | 0 => lb
  | fuel + 1 =>
      if lb.requestQueue.isEmpty then lb
      else
        let res := lb.assignScan lb.nextServerIndex 0 lb.servers.length
        if res.1 then LoadBalancer.distributeLoop res.2 fuel else res.2

/-- `LoadBalancer::distributeRequests` (`maxAttempts = servers.size() * 2`). -/
def LoadBalancer.distributeRequests (lb : LoadBalancer) : LoadBalancer :=
  if lb.requestQueue.isEmpty then lb
  else lb.distributeLoop (lb.servers.length * 2)

/-- The first phase of `LoadBalancer::processCycle`: every active server
runs one cycle, completions are summed. -/
def advanceAll : List WebServer → Int × List WebServer
  | [] => (0, [])
  | s :: rest =>
      let head := if s.isActive then s.processCycle else (0, s)
      let tail := advanceAll rest
      (head.1 + tail.1, head.2 :: tail.2)

/-- `LoadBalancer::processCycle`: advance all active servers, distribute
the admission queue, run the scaling check, accumulate the completion count. -/
def LoadBalancer.processCycle (lb : LoadBalancer) : Int × LoadBalancer :=
  let adv := advanceAll lb.servers
  let lb1 := { lb with servers := adv.2 }
  let lb2 := lb1.distributeRequests
  let lb3 := lb2.checkLoadBalancing
  (adv.1, { lb3 with totalRequestsProcessed := lb3.totalRequestsProcessed + adv.1 })

/-- `LoadBalancer::blockIP`. -/
def LoadBalancer.blockIP (lb : LoadBalancer) (ip : String) : LoadBalancer :=
  { lb with requestQueue := lb.requestQueue.blockIP ip }

/-- `LoadBalancer::unblockIP`. -/
def LoadBalancer.unblockIP (lb : LoadBalancer) (ip : String) : LoadBalancer :=
  { lb with requestQueue := lb.requestQueue.unblockIP ip }

/-- The state of the parameterized `LoadBalancer` constructor before its
`addServer` loop runs. -/
def LoadBalancer.base (maxServerCount minServerCount : Int) (threshold : ℚ) : LoadBalancer :=
  { servers := [], requestQueue := RequestQueue.init, nextServerIndex := 0,
    totalRequestsProcessed := 0, totalProcessingTime := 0,
    maxServers := maxServerCount, minServers := minServerCount,
    loadThreshold := threshold }

/-- The constructor's `addServer` loop, run `n` times. -/
def LoadBalancer.addInitialServers (lb : LoadBalancer) : Nat → LoadBalancer
  | 0 => lb
  | n + 1 => ((lb.addInitialServers n).addServer).2

/-- Parameterized constructor
`LoadBalancer(initialServers, maxServerCount, minServerCount, threshold)`. -/
def LoadBalancer.mkLB (initialServers maxServerCount minServerCount : Int)
    (threshold : ℚ) : LoadBalancer :=
  (LoadBalancer.base maxServerCount minServerCount threshold).addInitialServers
    initialServers.toNat

/-- Public mutating operations of the dispatcher. -/
inductive LBOp where
  | submit (request : Request)
  | cycle
  | block (ip : String)
  | unblock (ip : String)
  deriving DecidableEq

/-- Apply one public operation to a LoadBalancer state. -/
def LBOp.apply (lb : LoadBalancer) : LBOp → LoadBalancer
  | .submit r => (lb.addRequest r).2
  | .cycle => (lb.processCycle).2
  | .block ip => lb.blockIP ip
  | .unblock ip => lb.unblockIP ip

/-- Run a sequence of public operations. -/
def runOps (lb : LoadBalancer) (ops : List LBOp) : LoadBalancer :=
  ops.foldl LBOp.apply lb

/-- The scale-up guard of `LoadBalancer::checkLoadBalancing`, as a predicate
on the state it is evaluated in. -/
def LoadBalancer.scaleUpCond (lb : LoadBalancer) : Prop :=
  (lb.getSystemUtilization / 100 > lb.loadThreshold ∨ lb.getQueueSize > 10) ∧
  (lb.servers.length : Int) < lb.maxServers

/-- The scale-down guard of `LoadBalancer::checkLoadBalancing`, as a
predicate on the state it is evaluated in. -/
def LoadBalancer.scaleDownCond (lb : LoadBalancer) : Prop :=
  lb.getSystemUtilization / 100 < lb.loadThreshold * (5 / 100) ∧
  lb.getQueueSize = 0 ∧ (lb.servers.length : Int) > lb.minServers + 3

/-- Run-time well-formedness of one server: the load counter equals the
number of queued requests and the capacity is nonnegative. -/
def WebServer.wf (s : WebServer) : Prop :=
  s.currentLoad = (s.requestQueue.length : Int) ∧ 0 ≤ s.maxCapacity

/-- Run-time well-formedness of the server pool. -/
def LoadBalancer.serversWf (lb : LoadBalancer) : Prop :=
  ∀ s ∈ lb.servers, s.wf

/-! ### Basic lemmas about `WebServer.processCycle` -/

/-- The drain loop conserves items: every request is either kept or completed. -/
theorem processQueueItems_count (l : List Request) :
    ((processQueueItems l).kept.length : Int) + (processQueueItems l).completed =
      (l.length : Int) := by
  induction l with
  | nil => simp [processQueueItems]
  | cons r rest ih =>
      simp only [processQueueItems, List.length_cons]
      split <;> simp only [List.length_cons] <;> push_cast <;> push_cast at ih <;> linarith

/-- One processing cycle of an active server holding a single request that
still needs at least two cycles: no completion, the request stays with its
stored time decremented, and nothing else changes. -/
theorem WebServer.processCycle_keep (s : WebServer) (r : Request)
    (ha : s.isActive = true) (hq : s.requestQueue = [r])
    (ht : 2 ≤ r.processingTime) :
    s.processCycle =
      (0, { s with requestQueue := [r.setProcessingTime (r.processingTime - 1)] }) := by
  have hcond : ¬(s.isActive = false ∨ s.requestQueue = []) := by simp [ha, hq]
  rw [WebServer.processCycle, if_neg hcond]
  simp only [hq, processQueueItems]
  rw [if_neg (by omega)]
  simp

/-- One processing cycle of an active server holding a single request whose
stored time is at most 1: the request completes, its stored (remaining)
time is added to the processing-time counter, and the load drops by one. -/
theorem WebServer.processCycle_finish (s : WebServer) (r : Request)
    (ha : s.isActive = true) (hq : s.requestQueue = [r])
    (ht : r.processingTime ≤ 1) :
    s.processCycle =
      (1, { s with requestQueue := [],
                   currentLoad := s.currentLoad - 1,
                   totalRequestsProcessed := s.totalRequestsProcessed + 1,
                   totalProcessingTime := s.totalProcessingTime + r.processingTime }) := by
  have hcond : ¬(s.isActive = false ∨ s.requestQueue = []) := by simp [ha, hq]
  rw [WebServer.processCycle, if_neg hcond]
  simp only [hq, processQueueItems]
  rw [if_pos (by omega)]
  simp

/-- Running `k ≤ time - 1` cycles on an active server holding a single
request leaves the request queued with its stored time reduced by `k`
and all other fields untouched. -/
theorem WebServer.runCycles_single (s : WebServer) (r : Request)
    (ha : s.isActive = true) (hq : s.requestQueue = [r]) :
    ∀ k : Nat, (k : Int) ≤ r.processingTime - 1 →
      s.runCycles k =
        { s with requestQueue := [r.setProcessingTime (r.processingTime - (k : Int))] } := by
  intro k
  induction k with
  | zero =>
      intro _
      simp only [WebServer.runCycles, Nat.cast_zero, sub_zero, Request.setProcessingTime]
      rw [← hq]
  | succ k ih =>
      intro hk
      have hk' : (k : Int) ≤ r.processingTime - 1 := by push_cast at hk ⊢; omega
      have ht2 : 2 ≤ (r.setProcessingTime (r.processingTime - (k : Int))).processingTime := by
        simp only [Request.setProcessingTime]
        push_cast at hk
        omega
      rw [WebServer.runCycles, ih hk',
        WebServer.processCycle_keep _ (r.setProcessingTime (r.processingTime - (k : Int)))
          (by simpa using ha) rfl ht2]
      simp only [Request.setProcessingTime]
      have harg : r.processingTime - (k : Int) - 1 = r.processingTime - ((k + 1 : Nat) : Int) := by
        push_cast
        ring
      rw [harg]

/-! ### Lemmas about `RequestQueue` -/

/-- After `blockIP ip`, the address `ip` is blocked, and the queued requests
are unchanged. -/
theorem RequestQueue.blockIP_blocks (q : RequestQueue) (ip : String) :
    (q.blockIP ip).isIPBlocked ip = true ∧
    (q.blockIP ip).requestQueue = q.requestQueue ∧
    (q.blockIP ip).maxSize = q.maxSize := by
  unfold RequestQueue.blockIP
  by_cases hb : q.isIPBlocked ip = true
  · simp [hb]
  · rw [if_neg hb]
    refine ⟨?_, rfl, rfl⟩
    simp [RequestQueue.isIPBlocked]

/-- Characterization of when `RequestQueue::addRequest` rejects. -/
theorem RequestQueue.addRequest_false_iff (q : RequestQueue) (r : Request) :
    (q.addRequest r).1 = false ↔
      (q.isIPBlocked r.clientIP = true ∨ q.maxSize ≤ q.getSize) := by
  unfold RequestQueue.addRequest RequestQueue.isFull
  by_cases hb : q.isIPBlocked r.clientIP = true
  · simp [hb]
  · by_cases hf : q.getSize ≥ q.maxSize
    · simp [hb, hf]
    · simp [hb, hf]

/-- A rejected `addRequest` leaves the queue state unchanged. -/
theorem RequestQueue.addRequest_false_state (q : RequestQueue) (r : Request)
    (h : (q.addRequest r).1 = false) : (q.addRequest r).2 = q := by
  unfold RequestQueue.addRequest at h ⊢
  by_cases hb : q.isIPBlocked r.clientIP = true
  · simp [hb]
  · by_cases hf : q.isFull = true
    · simp [hb, hf]
    · simp [hb, hf] at h

/-- An accepted `addRequest` appends at the tail and bumps the admitted
counter. -/
theorem RequestQueue.addRequest_true_state (q : RequestQueue) (r : Request)
    (h : (q.addRequest r).1 = true) :
    (q.addRequest r).2.requestQueue = q.requestQueue ++ [r] ∧
    (q.addRequest r).2.totalRequestsAdded = q.totalRequestsAdded + 1 ∧
    (q.addRequest r).2.maxSize = q.maxSize := by
  unfold RequestQueue.addRequest at h ⊢
  by_cases hb : q.isIPBlocked r.clientIP = true
  · simp [hb] at h
  · by_cases hf : q.isFull = true
    · simp [hb, hf] at h
    · simp [hb, hf]

/-! ### Claim C7: admission-queue enqueue contract -/

/-- C7: `RequestQueue::addRequest` returns false, leaving the state
unchanged, exactly when the origin is blocked or the queue is at capacity
(stated for states satisfying the size invariant `size ≤ capacity`);
otherwise it returns true, appends at the tail and bumps the admitted
counter; and after `blockIP a` every submission from origin `a` is
rejected with the queued requests unchanged. -/
theorem C7_enqueue_contract (q : RequestQueue) (r : Request)
    (h : q.getSize ≤ q.maxSize) :
    ((q.addRequest r).1 = false ↔
      (q.isIPBlocked r.clientIP = true ∨ q.getSize = q.maxSize)) ∧
    ((q.addRequest r).1 = false → (q.addRequest r).2 = q) ∧
    ((q.addRequest r).1 = true →
      (q.addRequest r).2.requestQueue = q.requestQueue ++ [r] ∧
      (q.addRequest r).2.totalRequestsAdded = q.totalRequestsAdded + 1) ∧
    (∀ ip : String, r.clientIP = ip →
      ((q.blockIP ip).addRequest r).1 = false ∧
      ((q.blockIP ip).addRequest r).2.requestQueue = q.requestQueue) := by
  refine ⟨?_, RequestQueue.addRequest_false_state q r,
    fun ht => ⟨(RequestQueue.addRequest_true_state q r ht).1,
               (RequestQueue.addRequest_true_state q r ht).2.1⟩, ?_⟩
  · rw [RequestQueue.addRequest_false_iff]
    constructor
    · rintro (hb | hf)
      · exact Or.inl hb
      · exact Or.inr (le_antisymm h hf)
    · rintro (hb | hf)
      · exact Or.inl hb
      · exact Or.inr (le_of_eq hf.symm)
  · intro ip hip
    obtain ⟨hblk, hqueue, _⟩ := RequestQueue.blockIP_blocks q ip
    have hfalse : ((q.blockIP ip).addRequest r).1 = false := by
      rw [RequestQueue.addRequest_false_iff]
      exact Or.inl (hip ▸ hblk)
    refine ⟨hfalse, ?_⟩
    rw [RequestQueue.addRequest_false_state _ _ hfalse, hqueue]

/-- Concrete queue used in the C7 witness: capacity 3, one queued request. -/
def qC7 : RequestQueue :=
  { requestQueue := [Request.defaultRequest], maxSize := 3,
    totalRequestsAdded := 1, totalRequestsRemoved := 0, blockedIPs := [] }

/-- Request used in the C7 witness. -/
def rC7 : Request :=
  { clientIP := "1.2.3.4", requestType := "GET", priority := 5,
    processingTime := 4, requestID := 9 }

/-- Witness for C7 at a concrete queue state. -/
theorem C7_enqueue_contract_witness :
    qC7.getSize ≤ qC7.maxSize ∧
    (((qC7.addRequest rC7).1 = false ↔
       (qC7.isIPBlocked rC7.clientIP = true ∨ qC7.getSize = qC7.maxSize)) ∧
     ((qC7.addRequest rC7).1 = false → (qC7.addRequest rC7).2 = qC7) ∧
     ((qC7.addRequest rC7).1 = true →
       (qC7.addRequest rC7).2.requestQueue = qC7.requestQueue ++ [rC7] ∧
       (qC7.addRequest rC7).2.totalRequestsAdded = qC7.totalRequestsAdded + 1) ∧
     (∀ ip : String, rC7.clientIP = ip →
       ((qC7.blockIP ip).addRequest rC7).1 = false ∧
       ((qC7.blockIP ip).addRequest rC7).2.requestQueue = qC7.requestQueue)) :=
  ⟨by decide, C7_enqueue_contract qC7 rC7 (by decide)⟩

/-! ### Claim C8: queue utilization is a percentage, not a fraction -/

/-- Concrete queue refuting C8 as stated: one request queued, capacity 2. -/
def qC8 : RequestQueue :=
  { requestQueue := [Request.defaultRequest], maxSize := 2,
    totalRequestsAdded := 1, totalRequestsRemoved := 0, blockedIPs := [] }

/-- C8 (counterexample): with size 1 and capacity 2,
`RequestQueue::getUtilization` returns 50, which is neither the fraction
`size / capacity = 1/2` nor inside `[0, 1]`. -/
theorem C8_utilization_counterexample :
    qC8.getSize = 1 ∧ qC8.maxSize = 2 ∧
    qC8.getUtilization = 50 ∧
    qC8.getUtilization ≠ (qC8.getSize : ℚ) / (qC8.maxSize : ℚ) ∧
    ¬ qC8.getUtilization ≤ 1 := by
  with_unfolding_all decide

/-- C8 (amended): `RequestQueue::getUtilization` returns
`(size / capacity) * 100`, a percentage lying in `[0, 100]` on states
satisfying the size invariant, and returns 0 when the capacity is 0. -/
theorem C8_utilization_percentage (q : RequestQueue)
    (h0 : 0 ≤ q.maxSize) (h1 : q.getSize ≤ q.maxSize) :
    (q.maxSize = 0 → q.getUtilization = 0) ∧
    (q.maxSize ≠ 0 → q.getUtilization = ((q.getSize : ℚ) / (q.maxSize : ℚ)) * 100) ∧
    0 ≤ q.getUtilization ∧ q.getUtilization ≤ 100 := by
  unfold RequestQueue.getUtilization
  by_cases hz : q.maxSize = 0
  · simp [hz]
  · have hpos : (0 : ℚ) < (q.maxSize : ℚ) := by
      have : 0 < q.maxSize := lt_of_le_of_ne h0 (Ne.symm hz)
      exact_mod_cast this
    have hs0 : (0 : ℚ) ≤ (q.getSize : ℚ) := by
      have : (0 : Int) ≤ q.getSize := by
        unfold RequestQueue.getSize
        positivity
      exact_mod_cast this
    have hs1 : (q.getSize : ℚ) ≤ (q.maxSize : ℚ) := by exact_mod_cast h1
    refine ⟨fun habs => absurd habs hz, fun _ => by rw [if_neg hz], ?_, ?_⟩
    · rw [if_neg hz]
      positivity
    · rw [if_neg hz]
      have hdiv : (q.getSize : ℚ) / (q.maxSize : ℚ) ≤ 1 := by
        rw [div_le_one hpos]
        exact hs1
      nlinarith

/-- Witness for the amended C8 at a concrete queue state. -/
theorem C8_utilization_percentage_witness :
    (0 ≤ qC8.maxSize ∧ qC8.getSize ≤ qC8.maxSize) ∧
    ((qC8.maxSize = 0 → qC8.getUtilization = 0) ∧
     (qC8.maxSize ≠ 0 → qC8.getUtilization = ((qC8.getSize : ℚ) / (qC8.maxSize : ℚ)) * 100) ∧
     0 ≤ qC8.getUtilization ∧ qC8.getUtilization ≤ 100) :=
  ⟨⟨by decide, by decide⟩, C8_utilization_percentage qC8 (by decide) (by decide)⟩

/-! ### Claim C3: the processing-time counter accumulates the remaining,
not the original, duration -/

/-- Request with original processing duration 2, used as the C3 failing input. -/
def rC3 : Request :=
  { clientIP := "1.1.1.1", requestType := "GET", priority := 5,
    processingTime := 2, requestID := 7 }

/-- Active server holding exactly `rC3`, used as the C3 failing input. -/
def sC3 : WebServer :=
  { serverID := 1, serverIP := "192.168.1.1", maxCapacity := 5, currentLoad := 1,
    requestQueue := [rC3], isActive := true, totalRequestsProcessed := 0,
    totalProcessingTime := 0 }

/-- C3 (failing input): an uncontended request submitted with original
duration 2 completes after two cycles, but `WebServer::processCycle` adds
only 1 (the remaining stored duration at the completion cycle) to
`totalProcessingTime`, not the original duration 2 the claim requires. -/
theorem C3_processing_time_divergence :
    rC3.processingTime = 2 ∧
    (sC3.runCycles 2).totalRequestsProcessed = 1 ∧
    (sC3.runCycles 2).requestQueue = [] ∧
    (sC3.runCycles 2).totalProcessingTime = 1 := by
  with_unfolding_all decide

/-! ### Claim C1: completion timing -/

/-- C1: a request of duration `D ≥ 1` accepted by `WebServer::addRequest`
on an otherwise idle active server completes on exactly the `D`-th
following `processCycle` call: each of the `D - 1` preceding calls
reports 0 completions with the request still held, and the `D`-th call
reports 1 completion, empties the FIFO and decrements the load by 1. -/
theorem C1_completion_timing (s : WebServer) (r : Request) (D : Nat)
    (hD : r.processingTime = (D : Int)) (hD1 : 1 ≤ D)
    (hidle : s.requestQueue = []) (hacc : (s.addRequest r).1 = true) :
    (∀ k : Nat, k < D - 1 →
      (((s.addRequest r).2.runCycles k).processCycle.1 = 0 ∧
       ((s.addRequest r).2.runCycles k).processCycle.2.requestQueue ≠ [])) ∧
    ((s.addRequest r).2.runCycles (D - 1)).processCycle.1 = 1 ∧
    ((s.addRequest r).2.runCycles (D - 1)).processCycle.2.requestQueue = [] ∧
    ((s.addRequest r).2.runCycles (D - 1)).processCycle.2.currentLoad =
      ((s.addRequest r).2.runCycles (D - 1)).currentLoad - 1 := by
  by_cases hc : (!s.isActive || decide (s.currentLoad ≥ s.maxCapacity)) = true
  · exfalso
    unfold WebServer.addRequest at hacc
    rw [if_pos hc] at hacc
    exact Bool.false_ne_true hacc
  · have ha : s.isActive = true := by
      simp only [Bool.or_eq_true, not_or, Bool.not_eq_true', Bool.not_eq_false] at hc
      exact hc.1
    have hs1 : (s.addRequest r).2 =
        { s with requestQueue := [r], currentLoad := s.currentLoad + 1 } := by
      unfold WebServer.addRequest
      rw [if_neg hc]
      simp [hidle]
    rw [hs1]
    set s1 : WebServer := { s with requestQueue := [r], currentLoad := s.currentLoad + 1 }
      with hs1def
    have ha1 : s1.isActive = true := ha
    have hq1 : s1.requestQueue = [r] := rfl
    constructor
    · intro k hk
      have hkle : (k : Int) ≤ r.processingTime - 1 := by
        rw [hD]; omega
      rw [WebServer.runCycles_single s1 r ha1 hq1 k hkle]
      have ht2 : 2 ≤ (r.setProcessingTime (r.processingTime - (k : Int))).processingTime := by
        simp only [Request.setProcessingTime]
        rw [hD]; omega
      rw [WebServer.processCycle_keep _ _ (by simpa using ha1) rfl ht2]
      simp
    · have hDle : ((D - 1 : Nat) : Int) ≤ r.processingTime - 1 := by
        rw [hD]; omega
      rw [WebServer.runCycles_single s1 r ha1 hq1 (D - 1) hDle]
      have ht1 : (r.setProcessingTime (r.processingTime - ((D - 1 : Nat) : Int))).processingTime ≤ 1 := by
        simp only [Request.setProcessingTime]
        rw [hD]; omega
      rw [WebServer.processCycle_finish _ _ (by simpa using ha1) rfl ht1]
      simp

/-- Request of duration 2 used in the C1 witness. -/
def rC1 : Request :=
  { clientIP := "2.2.2.2", requestType := "GET", priority := 5,
    processingTime := 2, requestID := 11 }

/-- Fresh server used in the C1 witness. -/
def sC1 : WebServer := WebServer.mkServer 1 "192.168.1.1" 5

/-- Witness for C1 with duration 2 on a fresh server. -/
theorem C1_completion_timing_witness :
    (rC1.processingTime = ((2 : Nat) : Int) ∧ 1 ≤ (2 : Nat) ∧
     sC1.requestQueue = [] ∧ (sC1.addRequest rC1).1 = true) ∧
    ((∀ k : Nat, k < 2 - 1 →
       (((sC1.addRequest rC1).2.runCycles k).processCycle.1 = 0 ∧
        ((sC1.addRequest rC1).2.runCycles k).processCycle.2.requestQueue ≠ [])) ∧
     ((sC1.addRequest rC1).2.runCycles (2 - 1)).processCycle.1 = 1 ∧
     ((sC1.addRequest rC1).2.runCycles (2 - 1)).processCycle.2.requestQueue = [] ∧
     ((sC1.addRequest rC1).2.runCycles (2 - 1)).processCycle.2.currentLoad =
       ((sC1.addRequest rC1).2.runCycles (2 - 1)).currentLoad - 1) :=
  ⟨⟨by decide, by decide, by decide, by decide⟩,
   C1_completion_timing sC1 rC1 2 (by decide) (by decide) (by decide) (by decide)⟩

/-! ### Structural lemmas about the LoadBalancer operations -/

/-- The configuration fields of a dispatcher state that no public operation
modifies: pool bounds, threshold, and the dispatcher-level processing-time
counter. -/
def LoadBalancer.config (lb : LoadBalancer) : Int × Int × ℚ × Int :=
  (lb.maxServers, lb.minServers, lb.loadThreshold, lb.totalProcessingTime)

theorem LoadBalancer.config_addServer (lb : LoadBalancer) :
    (lb.addServer).2.config = lb.config := by
  unfold LoadBalancer.addServer
  split <;> rfl

theorem LoadBalancer.config_removeServer (lb : LoadBalancer) :
    (lb.removeServer).2.config = lb.config := by
  unfold LoadBalancer.removeServer
  split <;> rfl

theorem LoadBalancer.config_addRequest (lb : LoadBalancer) (r : Request) :
    (lb.addRequest r).2.config = lb.config := rfl

theorem LoadBalancer.config_blockIP (lb : LoadBalancer) (ip : String) :
    (lb.blockIP ip).config = lb.config := rfl

theorem LoadBalancer.config_unblockIP (lb : LoadBalancer) (ip : String) :
    (lb.unblockIP ip).config = lb.config := rfl

theorem LoadBalancer.config_assignScan (lb : LoadBalancer) (idx i fuel : Nat) :
    (lb.assignScan idx i fuel).2.config = lb.config := by
  induction fuel generalizing lb i with
  | zero => rfl
  | succ fuel ih =>
      unfold LoadBalancer.assignScan
      dsimp only
      split
      · split
        · split
          · rfl
          · exact ih _ _
        · exact ih _ _
      · rfl

theorem LoadBalancer.length_assignScan (lb : LoadBalancer) (idx i fuel : Nat) :
    (lb.assignScan idx i fuel).2.servers.length = lb.servers.length := by
  induction fuel generalizing lb i with
  | zero => rfl
  | succ fuel ih =>
      unfold LoadBalancer.assignScan
      dsimp only
      split
      · split
        · split
          · simp
          · exact ih _ _
        · exact ih _ _
      · rfl

theorem LoadBalancer.config_distributeLoop (lb : LoadBalancer) (fuel : Nat) :
    (lb.distributeLoop fuel).config = lb.config := by
  induction fuel generalizing lb with
  | zero => rfl
  | succ fuel ih =>
      unfold LoadBalancer.distributeLoop
      dsimp only
      split
      · rfl
      · split
        · rw [ih]
          exact LoadBalancer.config_assignScan lb lb.nextServerIndex 0 lb.servers.length
        · exact LoadBalancer.config_assignScan lb lb.nextServerIndex 0 lb.servers.length

theorem LoadBalancer.length_distributeLoop (lb : LoadBalancer) (fuel : Nat) :
    (lb.distributeLoop fuel).servers.length = lb.servers.length := by
  induction fuel generalizing lb with
  | zero => rfl
  | succ fuel ih =>
      unfold LoadBalancer.distributeLoop
      dsimp only
      split
      · rfl
      · split
        · rw [ih]
          exact LoadBalancer.length_assignScan lb lb.nextServerIndex 0 lb.servers.length
        · exact LoadBalancer.length_assignScan lb lb.nextServerIndex 0 lb.servers.length

theorem LoadBalancer.config_distributeRequests (lb : LoadBalancer) :
    lb.distributeRequests.config = lb.config := by
  unfold LoadBalancer.distributeRequests
  split
  · rfl
  · exact LoadBalancer.config_distributeLoop lb _

theorem LoadBalancer.length_distributeRequests (lb : LoadBalancer) :
    lb.distributeRequests.servers.length = lb.servers.length := by
  unfold LoadBalancer.distributeRequests
  split
  · rfl
  · exact LoadBalancer.length_distributeLoop lb _

theorem LoadBalancer.config_checkLoadBalancing (lb : LoadBalancer) :
    lb.checkLoadBalancing.config = lb.config := by
  unfold LoadBalancer.checkLoadBalancing
  dsimp only
  split
  · rfl
  · split
    · split
      · rw [LoadBalancer.config_removeServer, LoadBalancer.config_addServer]
      · exact LoadBalancer.config_addServer lb
    · split
      · exact LoadBalancer.config_removeServer lb
      · rfl

theorem advanceAll_length (l : List WebServer) :
    (advanceAll l).2.length = l.length := by
  induction l with
  | nil => rfl
  | cons s rest ih =>
      unfold advanceAll
      simp [ih]

theorem LoadBalancer.config_processCycle (lb : LoadBalancer) :
    (lb.processCycle).2.config = lb.config := by
  unfold LoadBalancer.processCycle
  have h1 := LoadBalancer.config_distributeRequests { lb with servers := (advanceAll lb.servers).2 }
  have h2 := LoadBalancer.config_checkLoadBalancing
    ({ lb with servers := (advanceAll lb.servers).2 }.distributeRequests)
  simp only [LoadBalancer.config] at h1 h2 ⊢
  simp_all

theorem LoadBalancer.config_apply (lb : LoadBalancer) (op : LBOp) :
    (LBOp.apply lb op).config = lb.config := by
  cases op with
  | submit r => exact LoadBalancer.config_addRequest lb r
  | cycle => exact LoadBalancer.config_processCycle lb
  | block ip => rfl
  | unblock ip => rfl

theorem LoadBalancer.config_runOps (lb : LoadBalancer) (ops : List LBOp) :
    (runOps lb ops).config = lb.config := by
  induction ops generalizing lb with
  | nil => rfl
  | cons op rest ih =>
      unfold runOps at ih ⊢
      rw [List.foldl_cons, ih, LoadBalancer.config_apply]

/-! ### Well-formedness preservation -/

theorem WebServer.addRequest_wf (s : WebServer) (r : Request) (h : s.wf) :
    ((s.addRequest r).2).wf := by
  unfold WebServer.addRequest
  split
  · exact h
  · obtain ⟨hl, hc⟩ := h
    refine ⟨?_, hc⟩
    show s.currentLoad + 1 = ((s.requestQueue ++ [r]).length : Int)
    rw [hl]
    simp [List.length_append]

theorem WebServer.processCycle_wf (s : WebServer) (h : s.wf) :
    ((s.processCycle).2).wf := by
  unfold WebServer.processCycle
  dsimp only
  split
  · exact h
  · obtain ⟨hl, hc⟩ := h
    refine ⟨?_, hc⟩
    show s.currentLoad - (processQueueItems s.requestQueue).completed =
      (((processQueueItems s.requestQueue).kept.length : Nat) : Int)
    have hcount := processQueueItems_count s.requestQueue
    omega

theorem advanceAll_wf (l : List WebServer) (h : ∀ s ∈ l, s.wf) :
    ∀ s ∈ (advanceAll l).2, s.wf := by
  induction l with
  | nil => simp [advanceAll]
  | cons a rest ih =>
      unfold advanceAll
      dsimp only
      intro s hs
      rcases List.mem_cons.mp hs with rfl | hs
      · split
        · exact WebServer.processCycle_wf a (h a (List.mem_cons_self a rest))
        · exact h a (List.mem_cons_self a rest)
      · exact ih (fun x hx => h x (List.mem_cons_of_mem a hx)) s hs

theorem LoadBalancer.assignScan_serversWf (lb : LoadBalancer) (idx i fuel : Nat)
    (h : lb.serversWf) : ((lb.assignScan idx i fuel).2).serversWf := by
  induction fuel generalizing lb i with
  | zero => exact h
  | succ fuel ih =>
      unfold LoadBalancer.assignScan
      dsimp only
      split
      · split
        · split
          · intro s hs
            rcases List.mem_or_eq_of_mem_set hs with hmem | rfl
            · exact h s hmem
            · exact WebServer.addRequest_wf _ _ (h _ (List.get_mem _ _ _))
          · exact ih _ _ h
        · exact ih _ _ h
      · exact h

theorem LoadBalancer.distributeLoop_serversWf (lb : LoadBalancer) (fuel : Nat)
    (h : lb.serversWf) : (lb.distributeLoop fuel).serversWf := by
  induction fuel generalizing lb with
  | zero => exact h
  | succ fuel ih =>
      unfold LoadBalancer.distributeLoop
      dsimp only
      split
      · exact h
      · split
        · exact ih _ (LoadBalancer.assignScan_serversWf lb _ _ _ h)
        · exact LoadBalancer.assignScan_serversWf lb _ _ _ h

theorem LoadBalancer.distributeRequests_serversWf (lb : LoadBalancer)
    (h : lb.serversWf) : lb.distributeRequests.serversWf := by
  unfold LoadBalancer.distributeRequests
  split
  · exact h
  · exact LoadBalancer.distributeLoop_serversWf lb _ h

theorem WebServer.mkServer_wf (id : Int) (ip : String) (capacity : Int)
    (h : 0 ≤ capacity) : (WebServer.mkServer id ip capacity).wf := by
  exact ⟨rfl, h⟩

theorem LoadBalancer.addServer_serversWf (lb : LoadBalancer) (h : lb.serversWf) :
    ((lb.addServer).2).serversWf := by
  unfold LoadBalancer.addServer
  split
  · exact h
  · intro s hs
    rcases List.mem_append.mp hs with hmem | hmem
    · exact h s hmem
    · rcases List.mem_singleton.mp hmem with rfl
      exact WebServer.mkServer_wf _ _ _ (by norm_num)

theorem LoadBalancer.removeServer_serversWf (lb : LoadBalancer) (h : lb.serversWf) :
    ((lb.removeServer).2).serversWf := by
  unfold LoadBalancer.removeServer
  split
  · exact h
  · exact fun s hs => h s (List.mem_of_mem_dropLast hs)

theorem LoadBalancer.checkLoadBalancing_serversWf (lb : LoadBalancer) (h : lb.serversWf) :
    lb.checkLoadBalancing.serversWf := by
  unfold LoadBalancer.checkLoadBalancing
  dsimp only
  split
  · exact h
  · split
    · split
      · exact LoadBalancer.removeServer_serversWf _ (LoadBalancer.addServer_serversWf lb h)
      · exact LoadBalancer.addServer_serversWf lb h
    · split
      · exact LoadBalancer.removeServer_serversWf lb h
      · exact h

/-! ### Nonnegativity of utilization -/

theorem WebServer.getUtilization_nonneg (s : WebServer) (h : s.wf) :
    0 ≤ s.getUtilization := by
  unfold WebServer.getUtilization
  split
  · exact le_refl 0
  · obtain ⟨hl, hc⟩ := h
    rename_i hcz
    have h1 : (0 : ℚ) ≤ (s.currentLoad : ℚ) := by
      rw [hl]
      push_cast
      positivity
    have h2 : (0 : ℚ) < (s.maxCapacity : ℚ) := by
      have : 0 < s.maxCapacity := lt_of_le_of_ne hc (Ne.symm hcz)
      exact_mod_cast this
    have := div_nonneg h1 (le_of_lt h2)
    nlinarith

theorem LoadBalancer.getSystemUtilization_nonneg (lb : LoadBalancer)
    (h : lb.serversWf) : 0 ≤ lb.getSystemUtilization := by
  unfold LoadBalancer.getSystemUtilization
  dsimp only
  split
  · exact le_refl 0
  · split
    · apply div_nonneg
      · apply List.sum_nonneg
        intro x hx
        obtain ⟨s, hs, rfl⟩ := List.mem_map.mp hx
        exact WebServer.getUtilization_nonneg s (h s (List.mem_of_mem_filter hs))
      · positivity
    · exact le_refl 0

/-! ### The scaling heuristic -/

/-- The raw arithmetic behind the hysteresis: with a nonnegative utilization
the scale-up guard and the scale-down guard cannot hold together, for any
threshold. -/
theorem scale_guards_exclusive (u t : ℚ) (qs : Int) (hu : 0 ≤ u)
    (h1 : u / 100 > t ∨ qs > 10) (h2 : u / 100 < t * (5 / 100)) (h3 : qs = 0) :
    False := by
  have hu100 : 0 ≤ u / 100 := by positivity
  rcases h1 with hut | hq
  · linarith
  · omega

/-- In any state with nonnegative mean utilization, the scale-up and
scale-down guards of `checkLoadBalancing` are mutually exclusive. -/
theorem LoadBalancer.not_scaleUp_and_scaleDown (lb : LoadBalancer)
    (h : 0 ≤ lb.getSystemUtilization) : ¬(lb.scaleUpCond ∧ lb.scaleDownCond) := by
  rintro ⟨⟨hup, _⟩, hdown, hq0, _⟩
  exact scale_guards_exclusive lb.getSystemUtilization lb.loadThreshold lb.getQueueSize
    h hup hdown hq0

theorem LoadBalancer.addServer_length_of_lt (lb : LoadBalancer)
    (h : (lb.servers.length : Int) < lb.maxServers) :
    ((lb.addServer).2.servers.length : Int) = (lb.servers.length : Int) + 1 := by
  unfold LoadBalancer.addServer
  rw [if_neg (by omega)]
  simp

theorem LoadBalancer.removeServer_length_of_gt (lb : LoadBalancer)
    (hne : lb.servers ≠ []) (h : (lb.servers.length : Int) > lb.minServers) :
    ((lb.removeServer).2.servers.length : Int) = (lb.servers.length : Int) - 1 := by
  unfold LoadBalancer.removeServer
  rw [if_neg (by omega)]
  have hpos : 1 ≤ lb.servers.length := List.length_pos.mpr hne
  simp [List.length_dropLast]
  omega

theorem LoadBalancer.removeServer_length_cases (lb : LoadBalancer) :
    ((lb.removeServer).2.servers.length : Int) = (lb.servers.length : Int) ∨
    (((lb.removeServer).2.servers.length : Int) = (lb.servers.length : Int) - 1 ∧
      1 ≤ lb.servers.length) := by
  unfold LoadBalancer.removeServer
  split
  · exact Or.inl rfl
  · by_cases hnil : lb.servers = []
    · left
      rw [hnil]
      rfl
    · right
      have hpos : 1 ≤ lb.servers.length := List.length_pos.mpr hnil
      constructor
      · simp [List.length_dropLast]
        omega
      · exact hpos

/-- C2: with a non-empty pool (and the run-time server invariant),
`LoadBalancer::checkLoadBalancing` adds a server exactly when
(mean utilization > threshold OR queue size > 10) AND pool size < maximum,
and removes one exactly when mean utilization < threshold * 0.05 AND the
queue is empty AND pool size > minimum + 3. -/
theorem C2_scaling_step (lb : LoadBalancer) (hne : lb.servers ≠ [])
    (hwf : lb.serversWf) :
    ((((lb.checkLoadBalancing).servers.length : Int) = (lb.servers.length : Int) + 1) ↔
       lb.scaleUpCond) ∧
    ((((lb.checkLoadBalancing).servers.length : Int) = (lb.servers.length : Int) - 1) ↔
       lb.scaleDownCond) := by
  have hexcl := LoadBalancer.not_scaleUp_and_scaleDown lb
    (LoadBalancer.getSystemUtilization_nonneg lb hwf)
  have hnotempty : ¬(lb.servers.isEmpty = true) := by
    simp [List.isEmpty_iff, hne]
  unfold LoadBalancer.checkLoadBalancing
  dsimp only
  rw [if_neg hnotempty]
  by_cases hup : (lb.getSystemUtilization / 100 > lb.loadThreshold ∨ lb.getQueueSize > 10) ∧
      (lb.servers.length : Int) < lb.maxServers
  · rw [if_pos hup]
    have hlen1 : ((lb.addServer).2.servers.length : Int) = (lb.servers.length : Int) + 1 :=
      LoadBalancer.addServer_length_of_lt lb hup.2
    have hdownfalse : ¬(lb.getSystemUtilization / 100 < lb.loadThreshold * (5 / 100) ∧
        lb.getQueueSize = 0 ∧
        ((lb.addServer).2.servers.length : Int) > lb.minServers + 3) := by
      rintro ⟨hd1, hd2, _⟩
      rcases hup.1 with hu | hq
      · exact scale_guards_exclusive lb.getSystemUtilization lb.loadThreshold lb.getQueueSize
          (LoadBalancer.getSystemUtilization_nonneg lb hwf) (Or.inl hu) hd1 hd2
      · omega
    rw [if_neg hdownfalse]
    constructor
    · exact iff_of_true hlen1 hup
    · refine iff_of_false (by omega) ?_
      intro hdn
      exact hexcl ⟨hup, hdn⟩
  · rw [if_neg hup]
    by_cases hdn : lb.getSystemUtilization / 100 < lb.loadThreshold * (5 / 100) ∧
        lb.getQueueSize = 0 ∧ (lb.servers.length : Int) > lb.minServers + 3
    · rw [if_pos hdn]
      have hlen : ((lb.removeServer).2.servers.length : Int) = (lb.servers.length : Int) - 1 :=
        LoadBalancer.removeServer_length_of_gt lb hne (by omega)
      constructor
      · exact iff_of_false (by omega) hup
      · exact iff_of_true hlen hdn
    · rw [if_neg hdn]
      constructor
      · exact iff_of_false (by omega) hup
      · exact iff_of_false (by omega) hdn

/-- Concrete two-server dispatcher state used by several witnesses. -/
def lbPool : LoadBalancer :=
  { servers := [WebServer.mkServer 1 "192.168.1.1" 5, WebServer.mkServer 2 "192.168.1.2" 5],
    requestQueue := RequestQueue.init, nextServerIndex := 0,
    totalRequestsProcessed := 0, totalProcessingTime := 0,
    maxServers := 20, minServers := 1, loadThreshold := 4 / 5 }

/-- Witness for C2 at a concrete two-server state. -/
theorem C2_scaling_step_witness :
    (lbPool.servers ≠ [] ∧ lbPool.serversWf) ∧
    (((((lbPool.checkLoadBalancing).servers.length : Int) = (lbPool.servers.length : Int) + 1) ↔
        lbPool.scaleUpCond) ∧
     ((((lbPool.checkLoadBalancing).servers.length : Int) = (lbPool.servers.length : Int) - 1) ↔
        lbPool.scaleDownCond)) :=
  ⟨⟨by decide, by unfold LoadBalancer.serversWf WebServer.wf; decide⟩,
   C2_scaling_step lbPool (by decide)
     (by unfold LoadBalancer.serversWf WebServer.wf; decide)⟩

theorem LoadBalancer.checkLoadBalancing_length_close (lb : LoadBalancer) :
    |((lb.checkLoadBalancing.servers.length : Int)) - (lb.servers.length : Int)| ≤ 1 := by
  rw [abs_le]
  unfold LoadBalancer.checkLoadBalancing
  dsimp only
  split
  · omega
  · split
    · rename_i hup
      have h1 := LoadBalancer.addServer_length_of_lt lb hup.2
      split
      · rcases LoadBalancer.removeServer_length_cases (lb.addServer).2 with h2 | ⟨h2, _⟩ <;> omega
      · omega
    · split
      · rcases LoadBalancer.removeServer_length_cases lb with h2 | ⟨h2, _⟩ <;> omega
      · omega

/-- C6: one `processCycle` call changes the pool size by at most one, and
the scale-up and scale-down guards, evaluated (as in the code) on the state
reached after advancing the servers and distributing the queue, can never
hold simultaneously. -/
theorem C6_at_most_one_change (lb : LoadBalancer) (hwf : lb.serversWf) :
    |((lb.processCycle).2.servers.length : Int) - (lb.servers.length : Int)| ≤ 1 ∧
    ¬((({ lb with servers := (advanceAll lb.servers).2 }).distributeRequests).scaleUpCond ∧
      (({ lb with servers := (advanceAll lb.servers).2 }).distributeRequests).scaleDownCond) := by
  have hwf1 : ({ lb with servers := (advanceAll lb.servers).2 } : LoadBalancer).serversWf :=
    advanceAll_wf lb.servers hwf
  have hwf2 : (({ lb with servers := (advanceAll lb.servers).2 } :
      LoadBalancer).distributeRequests).serversWf :=
    LoadBalancer.distributeRequests_serversWf _ hwf1
  constructor
  · have hlen2 : (({ lb with servers := (advanceAll lb.servers).2 } :
        LoadBalancer).distributeRequests).servers.length = lb.servers.length := by
      rw [LoadBalancer.length_distributeRequests]
      exact advanceAll_length lb.servers
    have hclose := LoadBalancer.checkLoadBalancing_length_close
      (({ lb with servers := (advanceAll lb.servers).2 } : LoadBalancer).distributeRequests)
    unfold LoadBalancer.processCycle
    dsimp only
    rw [abs_le] at hclose ⊢
    rw [hlen2] at hclose
    exact hclose
  · exact LoadBalancer.not_scaleUp_and_scaleDown _
      (LoadBalancer.getSystemUtilization_nonneg _ hwf2)

/-- Witness for C6 at a concrete two-server state. -/
theorem C6_at_most_one_change_witness :
    lbPool.serversWf ∧
    (|((lbPool.processCycle).2.servers.length : Int) - (lbPool.servers.length : Int)| ≤ 1 ∧
     ¬((({ lbPool with servers := (advanceAll lbPool.servers).2 }).distributeRequests).scaleUpCond ∧
       (({ lbPool with servers := (advanceAll lbPool.servers).2 }).distributeRequests).scaleDownCond)) :=
  ⟨by unfold LoadBalancer.serversWf WebServer.wf; decide,
   C6_at_most_one_change lbPool (by unfold LoadBalancer.serversWf WebServer.wf; decide)⟩

/-! ### Pool-size bounds invariant -/

/-- The pool-bounds invariant: server count within `[minServers, maxServers]`. -/
def LoadBalancer.sizeInv (lb : LoadBalancer) : Prop :=
  lb.minServers ≤ (lb.servers.length : Int) ∧ (lb.servers.length : Int) ≤ lb.maxServers

theorem LoadBalancer.fields_of_config_eq {a b : LoadBalancer} (h : a.config = b.config) :
    a.maxServers = b.maxServers ∧ a.minServers = b.minServers ∧
    a.loadThreshold = b.loadThreshold ∧ a.totalProcessingTime = b.totalProcessingTime := by
  unfold LoadBalancer.config at h
  simp only [Prod.mk.injEq] at h
  exact ⟨h.1, h.2.1, h.2.2.1, h.2.2.2⟩

theorem LoadBalancer.addServer_bounds (lb : LoadBalancer) (mn mx : Int)
    (hmx : lb.maxServers = mx)
    (h1 : mn ≤ (lb.servers.length : Int)) (h2 : (lb.servers.length : Int) ≤ mx) :
    mn ≤ ((lb.addServer).2.servers.length : Int) ∧
    ((lb.addServer).2.servers.length : Int) ≤ mx := by
  unfold LoadBalancer.addServer
  split
  · exact ⟨h1, h2⟩
  · rename_i h
    rw [hmx] at h
    simp only [List.length_append, List.length_singleton]
    push_cast
    omega

theorem LoadBalancer.removeServer_bounds (lb : LoadBalancer) (mn mx : Int)
    (hmn : lb.minServers = mn)
    (h1 : mn ≤ (lb.servers.length : Int)) (h2 : (lb.servers.length : Int) ≤ mx) :
    mn ≤ ((lb.removeServer).2.servers.length : Int) ∧
    ((lb.removeServer).2.servers.length : Int) ≤ mx := by
  unfold LoadBalancer.removeServer
  split
  · exact ⟨h1, h2⟩
  · rename_i h
    rw [hmn] at h
    simp only [List.length_dropLast]
    omega

theorem LoadBalancer.checkLoadBalancing_bounds (lb : LoadBalancer)
    (h1 : lb.minServers ≤ (lb.servers.length : Int))
    (h2 : (lb.servers.length : Int) ≤ lb.maxServers) :
    lb.minServers ≤ (lb.checkLoadBalancing.servers.length : Int) ∧
    (lb.checkLoadBalancing.servers.length : Int) ≤ lb.maxServers := by
  unfold LoadBalancer.checkLoadBalancing
  dsimp only
  split
  · exact ⟨h1, h2⟩
  · have hadd := LoadBalancer.addServer_bounds lb lb.minServers lb.maxServers rfl h1 h2
    have hfadd := LoadBalancer.fields_of_config_eq (LoadBalancer.config_addServer lb)
    split
    · split
      · exact LoadBalancer.removeServer_bounds (lb.addServer).2 lb.minServers lb.maxServers
          hfadd.2.1 hadd.1 hadd.2
      · exact hadd
    · split
      · exact LoadBalancer.removeServer_bounds lb lb.minServers lb.maxServers rfl h1 h2
      · exact ⟨h1, h2⟩

theorem LoadBalancer.processCycle_bounds (lb : LoadBalancer)
    (h1 : lb.minServers ≤ (lb.servers.length : Int))
    (h2 : (lb.servers.length : Int) ≤ lb.maxServers) :
    lb.minServers ≤ (((lb.processCycle).2).servers.length : Int) ∧
    (((lb.processCycle).2).servers.length : Int) ≤ lb.maxServers := by
  have hlen2 : (({ lb with servers := (advanceAll lb.servers).2 } :
      LoadBalancer).distributeRequests).servers.length = lb.servers.length := by
    rw [LoadBalancer.length_distributeRequests]
    exact advanceAll_length lb.servers
  have hf2 := LoadBalancer.fields_of_config_eq
    (LoadBalancer.config_distributeRequests ({ lb with servers := (advanceAll lb.servers).2 }))
  have hb := LoadBalancer.checkLoadBalancing_bounds
    (({ lb with servers := (advanceAll lb.servers).2 } : LoadBalancer).distributeRequests)
    (by rw [hlen2, hf2.2.1]; exact h1) (by rw [hlen2, hf2.1]; exact h2)
  unfold LoadBalancer.processCycle
  dsimp only
  rw [hf2.2.1, hf2.1] at hb
  exact hb

theorem LoadBalancer.apply_sizeInv (lb : LoadBalancer) (op : LBOp)
    (h : lb.sizeInv) : (LBOp.apply lb op).sizeInv := by
  cases op with
  | submit r => exact h
  | cycle =>
      have hf := LoadBalancer.fields_of_config_eq (LoadBalancer.config_processCycle lb)
      have hb := LoadBalancer.processCycle_bounds lb h.1 h.2
      show ((lb.processCycle).2).sizeInv
      exact ⟨by rw [hf.2.1]; exact hb.1, by rw [hf.1]; exact hb.2⟩
  | block ip => exact h
  | unblock ip => exact h

theorem LoadBalancer.runOps_sizeInv (lb : LoadBalancer) (ops : List LBOp)
    (h : lb.sizeInv) : (runOps lb ops).sizeInv := by
  induction ops generalizing lb with
  | nil => exact h
  | cons op rest ih =>
      unfold runOps at ih ⊢
      rw [List.foldl_cons]
      exact ih _ (LoadBalancer.apply_sizeInv lb op h)

theorem LoadBalancer.config_addInitialServers (lb : LoadBalancer) (n : Nat) :
    (lb.addInitialServers n).config = lb.config := by
  induction n with
  | zero => rfl
  | succ n ih =>
      unfold LoadBalancer.addInitialServers
      rw [LoadBalancer.config_addServer, ih]

theorem LoadBalancer.addInitialServers_length (lb : LoadBalancer) (n : Nat)
    (h : (lb.servers.length : Int) + n ≤ lb.maxServers) :
    (lb.addInitialServers n).servers.length = lb.servers.length + n := by
  induction n with
  | zero => rfl
  | succ n ih =>
      have hn : (lb.servers.length : Int) + n ≤ lb.maxServers := by push_cast at h ⊢; omega
      have hlen := ih hn
      have hmax : (lb.addInitialServers n).maxServers = lb.maxServers :=
        (LoadBalancer.fields_of_config_eq (LoadBalancer.config_addInitialServers lb n)).1
      unfold LoadBalancer.addInitialServers
      have hlt : ((lb.addInitialServers n).servers.length : Int) <
          (lb.addInitialServers n).maxServers := by
        rw [hlen, hmax]
        push_cast at h ⊢
        omega
      have := LoadBalancer.addServer_length_of_lt (lb.addInitialServers n) hlt
      omega

theorem LoadBalancer.mkLB_fields (initialServers maxServerCount minServerCount : Int)
    (threshold : ℚ) :
    (LoadBalancer.mkLB initialServers maxServerCount minServerCount threshold).maxServers =
        maxServerCount ∧
    (LoadBalancer.mkLB initialServers maxServerCount minServerCount threshold).minServers =
        minServerCount ∧
    (LoadBalancer.mkLB initialServers maxServerCount minServerCount threshold).loadThreshold =
        threshold ∧
    (LoadBalancer.mkLB initialServers maxServerCount minServerCount threshold).totalProcessingTime =
        0 :=
  LoadBalancer.fields_of_config_eq
    (LoadBalancer.config_addInitialServers
      (LoadBalancer.base maxServerCount minServerCount threshold) initialServers.toNat)

theorem LoadBalancer.mkLB_length (initialServers maxServerCount minServerCount : Nat)
    (threshold : ℚ) (h : initialServers ≤ maxServerCount) :
    (LoadBalancer.mkLB initialServers maxServerCount minServerCount threshold).servers.length =
      initialServers := by
  unfold LoadBalancer.mkLB
  have htn : ((initialServers : Int)).toNat = initialServers := Int.toNat_natCast initialServers
  rw [htn]
  have hpre : (((LoadBalancer.base maxServerCount minServerCount threshold).servers.length : Int) +
      initialServers ≤
      (LoadBalancer.base maxServerCount minServerCount threshold).maxServers) := by
    show ((([] : List WebServer).length : Int) + initialServers ≤ (maxServerCount : Int))
    simp
    exact_mod_cast h
  have := LoadBalancer.addInitialServers_length
    (LoadBalancer.base maxServerCount minServerCount threshold) initialServers hpre
  simpa [LoadBalancer.base] using this

/-- C5: for a dispatcher constructed with counts
`minimum ≤ initial ≤ maximum`, the pool size stays within
`[minimum, maximum]` after any sequence of public operations. -/
theorem C5_pool_bounds (initialServers maxServerCount minServerCount : Nat)
    (threshold : ℚ) (ops : List LBOp)
    (hmi : minServerCount ≤ initialServers) (hma : initialServers ≤ maxServerCount) :
    minServerCount ≤
      (runOps (LoadBalancer.mkLB initialServers maxServerCount minServerCount threshold)
        ops).servers.length ∧
    (runOps (LoadBalancer.mkLB initialServers maxServerCount minServerCount threshold)
        ops).servers.length ≤ maxServerCount := by
  set lb0 := LoadBalancer.mkLB initialServers maxServerCount minServerCount threshold with hlb0
  have hlen0 : lb0.servers.length = initialServers :=
    LoadBalancer.mkLB_length initialServers maxServerCount minServerCount threshold hma
  have hf0 := LoadBalancer.mkLB_fields (initialServers : Int) maxServerCount minServerCount
    threshold
  have hinv0 : lb0.sizeInv := by
    constructor
    · rw [hlen0, hf0.2.1]
      show (minServerCount : Int) ≤ (initialServers : Int)
      exact_mod_cast hmi
    · rw [hlen0, hf0.1]
      show ((initialServers : Nat) : Int) ≤ (maxServerCount : Int)
      exact_mod_cast hma
  have hinv := LoadBalancer.runOps_sizeInv lb0 ops hinv0
  have hff := LoadBalancer.fields_of_config_eq (LoadBalancer.config_runOps lb0 ops)
  obtain ⟨hi1, hi2⟩ := hinv
  rw [hff.2.1, hf0.2.1] at hi1
  rw [hff.1, hf0.1] at hi2
  constructor
  · exact_mod_cast hi1
  · exact_mod_cast hi2

/-- Witness for C5: three-server pool with bounds `[1, 5]`, one submission
and two cycles. -/
theorem C5_pool_bounds_witness :
    ((1 : Nat) ≤ 3 ∧ (3 : Nat) ≤ 5) ∧
    (1 ≤ (runOps (LoadBalancer.mkLB 3 5 1 (4 / 5))
            [LBOp.submit Request.defaultRequest, LBOp.cycle, LBOp.cycle]).servers.length ∧
      (runOps (LoadBalancer.mkLB 3 5 1 (4 / 5))
            [LBOp.submit Request.defaultRequest, LBOp.cycle, LBOp.cycle]).servers.length ≤ 5) :=
  ⟨⟨by decide, by decide⟩,
   C5_pool_bounds 3 5 1 (4 / 5)
     [LBOp.submit Request.defaultRequest, LBOp.cycle, LBOp.cycle] (by decide) (by decide)⟩

/-! ### Claim C10: the dispatcher-level mean processing time is constantly 0 -/

/-- C10: for every constructor configuration and every sequence of public
operations, the dispatcher-level `totalProcessingTime` counter is still 0
(no operation ever increments it) and therefore
`LoadBalancer::getAverageProcessingTime` returns 0. -/
theorem C10_average_processing_time_zero
    (initialServers maxServerCount minServerCount : Int) (threshold : ℚ)
    (ops : List LBOp) :
    (runOps (LoadBalancer.mkLB initialServers maxServerCount minServerCount threshold)
        ops).totalProcessingTime = 0 ∧
    (runOps (LoadBalancer.mkLB initialServers maxServerCount minServerCount threshold)
        ops).getAverageProcessingTime = 0 := by
  have hf := LoadBalancer.fields_of_config_eq
    (LoadBalancer.config_runOps
      (LoadBalancer.mkLB initialServers maxServerCount minServerCount threshold) ops)
  have htot : (runOps (LoadBalancer.mkLB initialServers maxServerCount minServerCount threshold)
      ops).totalProcessingTime = 0 := by
    rw [hf.2.2.2]
    exact (LoadBalancer.mkLB_fields initialServers maxServerCount minServerCount threshold).2.2.2
  refine ⟨htot, ?_⟩
  unfold LoadBalancer.getAverageProcessingTime
  split
  · rfl
  · rw [htot]
    simp

/-! ### Claim C9: validity of the rotation cursor -/

/-- Duration-1 request from a fixed origin, used in the C9 scenario. -/
def rqC9 (i : Int) : Request :=
  { clientIP := "10.0.0.1", requestType := "GET", priority := 5,
    processingTime := 1, requestID := i }

/-- The C9 scenario: dispatcher built as `LoadBalancer(5, 10, 1, 0.8)`,
four duration-1 submissions, then two cycles.  The first cycle places the
four requests on servers 0-3 and leaves the cursor at 4; the second cycle
completes them all and, with utilization 0 and an empty queue, shrinks the
pool to 4 servers without touching the cursor. -/
def c9state : LoadBalancer :=
  runOps (LoadBalancer.mkLB 5 10 1 (4 / 5))
    [LBOp.submit (rqC9 1), LBOp.submit (rqC9 2), LBOp.submit (rqC9 3),
     LBOp.submit (rqC9 4), LBOp.cycle, LBOp.cycle]

/-- C9 (counterexample): in the reachable state `c9state` the pool is
non-empty (4 servers) but the rotation cursor equals 4, so
`nextServerIndex < servers.size()` fails after a shrinking `processCycle`. -/
theorem C9_cursor_counterexample :
    c9state.servers.length = 4 ∧ c9state.nextServerIndex = 4 ∧
    ¬(c9state.nextServerIndex < c9state.servers.length) := by
  with_unfolding_all decide

theorem LoadBalancer.assignScan_cursor (lb : LoadBalancer) (idx i fuel : Nat) :
    (lb.assignScan idx i fuel).2.nextServerIndex = lb.nextServerIndex ∨
    (lb.assignScan idx i fuel).2.nextServerIndex < lb.servers.length := by
  induction fuel generalizing lb i with
  | zero => exact Or.inl rfl
  | succ fuel ih =>
      unfold LoadBalancer.assignScan
      dsimp only
      split
      · rename_i hidx
        split
        · split
          · right
            exact Nat.mod_lt _ (by omega)
          · exact ih _ _
        · exact ih _ _
      · exact Or.inl rfl

theorem LoadBalancer.distributeLoop_cursor (lb : LoadBalancer) (fuel : Nat) :
    (lb.distributeLoop fuel).nextServerIndex = lb.nextServerIndex ∨
    (lb.distributeLoop fuel).nextServerIndex < lb.servers.length := by
  induction fuel generalizing lb with
  | zero => exact Or.inl rfl
  | succ fuel ih =>
      unfold LoadBalancer.distributeLoop
      dsimp only
      split
      · exact Or.inl rfl
      · have hs := LoadBalancer.assignScan_cursor lb lb.nextServerIndex 0 lb.servers.length
        have hl := LoadBalancer.length_assignScan lb lb.nextServerIndex 0 lb.servers.length
        split
        · rcases ih ((lb.assignScan lb.nextServerIndex 0 lb.servers.length).2) with h1 | h2
          · rw [h1]
            exact hs
          · right
            rw [hl] at h2
            exact h2
        · exact hs

theorem LoadBalancer.addServer_cursor (lb : LoadBalancer) :
    (lb.addServer).2.nextServerIndex = lb.nextServerIndex := by
  unfold LoadBalancer.addServer
  split <;> rfl

theorem LoadBalancer.removeServer_cursor (lb : LoadBalancer) :
    (lb.removeServer).2.nextServerIndex = lb.nextServerIndex := by
  unfold LoadBalancer.removeServer
  split <;> rfl

theorem LoadBalancer.checkLoadBalancing_cursor (lb : LoadBalancer) :
    lb.checkLoadBalancing.nextServerIndex = lb.nextServerIndex := by
  unfold LoadBalancer.checkLoadBalancing
  dsimp only
  split
  · rfl
  · split
    · split
      · rw [LoadBalancer.removeServer_cursor, LoadBalancer.addServer_cursor]
      · exact LoadBalancer.addServer_cursor lb
    · split
      · exact LoadBalancer.removeServer_cursor lb
      · rfl

theorem LoadBalancer.processCycle_cursor (lb : LoadBalancer) :
    (lb.processCycle).2.nextServerIndex = lb.nextServerIndex ∨
    (lb.processCycle).2.nextServerIndex < lb.servers.length := by
  unfold LoadBalancer.processCycle LoadBalancer.distributeRequests
  dsimp only
  rw [LoadBalancer.checkLoadBalancing_cursor]
  split
  · exact Or.inl rfl
  · have hd := LoadBalancer.distributeLoop_cursor
      ({ lb with servers := (advanceAll lb.servers).2 }) ((advanceAll lb.servers).2.length * 2)
    rcases hd with h1 | h2
    · exact Or.inl h1
    · exact Or.inr (lt_of_lt_of_eq h2 (advanceAll_length lb.servers))

theorem LoadBalancer.apply_cursor_bound (lb : LoadBalancer) (op : LBOp)
    (h1 : (lb.servers.length : Int) ≤ lb.maxServers)
    (h2 : ((lb.nextServerIndex : Int)) < lb.maxServers) :
    (((LBOp.apply lb op).nextServerIndex : Int)) < (LBOp.apply lb op).maxServers := by
  cases op with
  | submit r => exact h2
  | cycle =>
      have hf := LoadBalancer.fields_of_config_eq (LoadBalancer.config_processCycle lb)
      show (((lb.processCycle).2.nextServerIndex : Int)) < (lb.processCycle).2.maxServers
      rw [hf.1]
      rcases LoadBalancer.processCycle_cursor lb with hc | hc
      · rw [hc]
        exact h2
      · have : ((lb.processCycle).2.nextServerIndex : Int) < (lb.servers.length : Int) := by
          exact_mod_cast hc
        omega
  | block ip => exact h2
  | unblock ip => exact h2

theorem LoadBalancer.runOps_cursor_bound (lb : LoadBalancer) (ops : List LBOp)
    (hinv : lb.sizeInv) (hc : ((lb.nextServerIndex : Int)) < lb.maxServers) :
    (((runOps lb ops).nextServerIndex : Int)) < (runOps lb ops).maxServers := by
  induction ops generalizing lb with
  | nil => exact hc
  | cons op rest ih =>
      unfold runOps at ih ⊢
      rw [List.foldl_cons]
      exact ih _ (LoadBalancer.apply_sizeInv lb op hinv)
        (LoadBalancer.apply_cursor_bound lb op hinv.2 hc)

theorem LoadBalancer.addInitialServers_cursor (lb : LoadBalancer) (n : Nat) :
    (lb.addInitialServers n).nextServerIndex = lb.nextServerIndex := by
  induction n with
  | zero => rfl
  | succ n ih =>
      unfold LoadBalancer.addInitialServers
      rw [LoadBalancer.addServer_cursor, ih]

/-- C9 (amended): for a dispatcher constructed with counts
`minimum ≤ initial ≤ maximum` and `maximum ≥ 1`, the rotation cursor always
satisfies `0 ≤ nextServerIndex < maxServers` in every reachable state; it
is not always a valid index into the pool, because a shrinking
`processCycle` leaves it untouched (see the counterexample, where it equals
the pool size). -/
theorem C9_cursor_amended (initialServers maxServerCount minServerCount : Nat)
    (threshold : ℚ) (ops : List LBOp)
    (hmi : minServerCount ≤ initialServers) (hma : initialServers ≤ maxServerCount)
    (hmax1 : 1 ≤ maxServerCount) :
    (((runOps (LoadBalancer.mkLB initialServers maxServerCount minServerCount threshold)
        ops).nextServerIndex : Int)) < maxServerCount := by
  set lb0 := LoadBalancer.mkLB (initialServers : Int) maxServerCount minServerCount threshold
    with hlb0
  have hlen0 : lb0.servers.length = initialServers :=
    LoadBalancer.mkLB_length initialServers maxServerCount minServerCount threshold hma
  have hf0 := LoadBalancer.mkLB_fields (initialServers : Int) maxServerCount minServerCount
    threshold
  have hcur0 : lb0.nextServerIndex = 0 := by
    rw [hlb0]
    unfold LoadBalancer.mkLB
    rw [LoadBalancer.addInitialServers_cursor]
    rfl
  have hinv0 : lb0.sizeInv := by
    constructor
    · rw [hlen0, hf0.2.1]
      exact_mod_cast hmi
    · rw [hlen0, hf0.1]
      exact_mod_cast hma
  have h := LoadBalancer.runOps_cursor_bound lb0 ops hinv0
    (by rw [hcur0, hf0.1]; push_cast; omega)
  have hff := LoadBalancer.fields_of_config_eq (LoadBalancer.config_runOps lb0 ops)
  rw [hff.1, hf0.1] at h
  exact h

/-- Witness for the amended C9: bounds `[1, 3]`, two initial servers, one
cycle. -/
theorem C9_cursor_amended_witness :
    ((1 : Nat) ≤ 2 ∧ (2 : Nat) ≤ 3 ∧ (1 : Nat) ≤ 3) ∧
    (((runOps (LoadBalancer.mkLB 2 3 1 (4 / 5)) [LBOp.cycle]).nextServerIndex : Int)) < 3 :=
  ⟨⟨by decide, by decide, by decide⟩,
   C9_cursor_amended 2 3 1 (4 / 5) [LBOp.cycle] (by decide) (by decide) (by decide)⟩

/-! ### Round-robin fairness: auxiliary lemmas -/

/-- Distinct offsets below `N` land on distinct rotation indices. -/
theorem rotIndex_inj (N c j1 j2 : Nat) (h1 : j1 < N) (h2 : j2 < N)
    (h : (c + j1) % N = (c + j2) % N) : j1 = j2 := by
  have hm : c + j1 ≡ c + j2 [MOD N] := h
  have h3 : j1 ≡ j2 [MOD N] := Nat.ModEq.add_left_cancel' c hm
  have h4 : j1 % N = j2 % N := h3
  rwa [Nat.mod_eq_of_lt h1, Nat.mod_eq_of_lt h2] at h4

/-- Every index below `N` is hit by some offset below `N`. -/
theorem rotIndex_cover (N c m : Nat) (hm : m < N) :
    ∃ j, j < N ∧ (c + j) % N = m := by
  have hN : 0 < N := lt_of_le_of_lt (Nat.zero_le m) hm
  refine ⟨(N - c % N + m) % N, Nat.mod_lt _ hN, ?_⟩
  have hcm : c % N ≤ N := le_of_lt (Nat.mod_lt c hN)
  calc (c + (N - c % N + m) % N) % N
      = (c % N + (N - c % N + m) % N) % N := by
        conv_lhs => rw [Nat.add_mod]
        rw [Nat.mod_mod]
    _ = (c % N + (N - c % N + m)) % N := by
        conv_rhs => rw [Nat.add_mod]
        rw [Nat.mod_mod]
    _ = (N + m) % N := by
        congr 1
        omega
    _ = m % N := Nat.add_mod_left N m
    _ = m := Nat.mod_eq_of_lt hm

/-- `getNextRequest` on a non-empty queue pops the head and bumps the
removal counter. -/
theorem RequestQueue.getNextRequest_cons (q : RequestQueue) (r : Request)
    (rest : List Request) (h : q.requestQueue = r :: rest) :
    q.getNextRequest =
      (r, { q with requestQueue := rest,
                   totalRequestsRemoved := q.totalRequestsRemoved + 1 }) := by
  rcases q with ⟨qq, ms, ta, tr, bl⟩
  dsimp only at h
  subst h
  rfl

/-- `addRequest` on a server that `canAcceptRequest` succeeds and appends
the request. -/
theorem WebServer.addRequest_of_canAccept (s : WebServer) (r : Request)
    (h : s.canAcceptRequest = true) :
    (s.addRequest r).1 = true ∧
    (s.addRequest r).2 = { s with requestQueue := s.requestQueue ++ [r],
                                  currentLoad := s.currentLoad + 1 } := by
  unfold WebServer.canAcceptRequest at h
  simp only [Bool.and_eq_true, decide_eq_true_eq] at h
  unfold WebServer.addRequest
  rw [if_neg]
  · exact ⟨rfl, rfl⟩
  · simp only [Bool.or_eq_true, Bool.not_eq_true', decide_eq_true_eq, not_or, not_le]
    exact ⟨by simp [h.1], h.2⟩

/-- One step of the inner scan when the server at the cursor position can
accept: the head request is placed there and the cursor moves just past it. -/
theorem LoadBalancer.assignScan_first (lb : LoadBalancer) (idx fuel : Nat)
    (hn : 0 < lb.servers.length) (hf : 0 < fuel)
    (hcan : (lb.servers.get ⟨idx % lb.servers.length,
        Nat.mod_lt idx hn⟩).canAcceptRequest = true) :
    lb.assignScan idx 0 fuel =
      (true,
       { lb with
         servers := lb.servers.set (idx % lb.servers.length)
           ((lb.servers.get ⟨idx % lb.servers.length, Nat.mod_lt idx hn⟩).addRequest
             (lb.requestQueue.getNextRequest).1).2,
         requestQueue := (lb.requestQueue.getNextRequest).2,
         nextServerIndex := (idx % lb.servers.length + 1) % lb.servers.length }) := by
  obtain ⟨hfst, _⟩ := WebServer.addRequest_of_canAccept _
    (lb.requestQueue.getNextRequest).1 hcan
  cases fuel with
  | zero => omega
  | succ f =>
      unfold LoadBalancer.assignScan
      dsimp only
      simp only [Nat.add_zero]
      rw [dif_pos (Nat.mod_lt idx hn)]
      rw [if_pos hcan, if_pos hfst]

/-- `distributeLoop` on an empty admission queue does nothing. -/
theorem LoadBalancer.distributeLoop_of_empty (lb : LoadBalancer) (fuel : Nat)
    (h : lb.requestQueue.isEmpty = true) : lb.distributeLoop fuel = lb := by
  cases fuel with
  | zero => rfl
  | succ f =>
      unfold LoadBalancer.distributeLoop
      rw [if_pos h]

/-- Unfolding equation for one iteration of `distributeLoop`. -/
theorem LoadBalancer.distributeLoop_succ (lb : LoadBalancer) (fuel : Nat) :
    lb.distributeLoop (fuel + 1) =
      if lb.requestQueue.isEmpty then lb
      else
        if (lb.assignScan lb.nextServerIndex 0 lb.servers.length).1 then
          ((lb.assignScan lb.nextServerIndex 0 lb.servers.length).2).distributeLoop fuel
        else (lb.assignScan lb.nextServerIndex 0 lb.servers.length).2 := rfl

/-- The round-robin loop invariant: starting with `k` of `N` servers
already holding one item each (those at rotation offsets `0 .. k-1` from
the base cursor `c`) and `m = N - k` queued items, the remaining loop
iterations give every server exactly one item and drain the queue. -/
theorem LoadBalancer.distributeLoop_fair (N c : Nat) :
    ∀ (m k : Nat) (lb : LoadBalancer),
      k + m = N →
      lb.servers.length = N →
      lb.nextServerIndex % N = (c + k) % N →
      lb.requestQueue.requestQueue.length = m →
      (∀ (mi : Nat) (hmi : mi < lb.servers.length),
        (lb.servers.get ⟨mi, hmi⟩).isActive = true ∧
        1 ≤ (lb.servers.get ⟨mi, hmi⟩).maxCapacity ∧
        (lb.servers.get ⟨mi, hmi⟩).currentLoad =
          (if ∃ j, j < k ∧ (c + j) % N = mi then 1 else 0)) →
      (∀ s ∈ (lb.distributeLoop (N + m)).servers, s.currentLoad = 1) ∧
      (lb.distributeLoop (N + m)).requestQueue.requestQueue = [] ∧
      (lb.distributeLoop (N + m)).servers.length = N := by
  intro m
  induction m with
  | zero =>
      intro k lb hkm hlen hcur hql hsrv
      have hq : lb.requestQueue.requestQueue = [] := List.length_eq_zero.mp hql
      have hempty : lb.requestQueue.isEmpty = true := by
        unfold RequestQueue.isEmpty
        rw [hq]
        rfl
      rw [LoadBalancer.distributeLoop_of_empty lb _ hempty]
      refine ⟨?_, hq, hlen⟩
      intro s hs
      obtain ⟨⟨mi, hmi⟩, rfl⟩ := List.mem_iff_get.mp hs
      obtain ⟨j, hj, hje⟩ := rotIndex_cover N c mi (by omega)
      rw [(hsrv mi hmi).2.2, if_pos ⟨j, by omega, hje⟩]
  | succ m ih =>
      intro k lb hkm hlen hcur hql hsrv
      have hN : 0 < N := by omega
      have hkN : k < N := by omega
      have hlenpos : 0 < lb.servers.length := by omega
      obtain ⟨hd, tl, hq⟩ : ∃ hd tl, lb.requestQueue.requestQueue = hd :: tl := by
        cases hqq : lb.requestQueue.requestQueue with
        | nil => rw [hqq] at hql; simp at hql
        | cons a l => exact ⟨a, l, rfl⟩
      have hnempty : ¬(lb.requestQueue.isEmpty = true) := by
        unfold RequestQueue.isEmpty
        rw [hq]
        simp
      have htgtlt : lb.nextServerIndex % lb.servers.length < lb.servers.length :=
        Nat.mod_lt _ hlenpos
      have htgtN : lb.nextServerIndex % lb.servers.length = (c + k) % N := by
        rw [hlen]
        exact hcur
      have hnotserved :
          ¬∃ j, j < k ∧ (c + j) % N = lb.nextServerIndex % lb.servers.length := by
        rintro ⟨j, hj, hje⟩
        rw [htgtN] at hje
        have := rotIndex_inj N c j k (by omega) hkN hje
        omega
      have hsrvt := hsrv (lb.nextServerIndex % lb.servers.length) htgtlt
      have hload0 : (lb.servers.get ⟨lb.nextServerIndex % lb.servers.length,
          htgtlt⟩).currentLoad = 0 := by
        rw [hsrvt.2.2, if_neg hnotserved]
      have hcan : (lb.servers.get ⟨lb.nextServerIndex % lb.servers.length,
          htgtlt⟩).canAcceptRequest = true := by
        unfold WebServer.canAcceptRequest
        rw [hsrvt.1, hload0]
        simp only [Bool.true_and, decide_eq_true_eq]
        have := hsrvt.2.1
        omega
      obtain ⟨hfst, hsnd⟩ := WebServer.addRequest_of_canAccept
        (lb.servers.get ⟨lb.nextServerIndex % lb.servers.length, htgtlt⟩)
        (lb.requestQueue.getNextRequest).1 hcan
      rw [show N + (m + 1) = (N + m) + 1 from rfl, LoadBalancer.distributeLoop_succ,
        if_neg hnempty,
        LoadBalancer.assignScan_first lb lb.nextServerIndex lb.servers.length hlenpos hlenpos
          hcan]
      rw [if_pos rfl]
      refine ih (k + 1) _ (by omega) ?_ ?_ ?_ ?_
      · show (lb.servers.set (lb.nextServerIndex % lb.servers.length) _).length = N
        rw [List.length_set]
        exact hlen
      · show ((lb.nextServerIndex % lb.servers.length + 1) % lb.servers.length) % N =
          (c + (k + 1)) % N
        rw [hlen, Nat.mod_mod, hcur, Nat.mod_add_mod, Nat.add_assoc]
      · show ((lb.requestQueue.getNextRequest).2).requestQueue.length = m
        rw [RequestQueue.getNextRequest_cons lb.requestQueue hd tl hq]
        rw [hq] at hql
        simpa using hql
      · intro mi hmi'
        have hmi : mi < lb.servers.length := by
          have := hmi'
          rw [List.length_set] at this
          exact this
        by_cases heq : lb.nextServerIndex % lb.servers.length = mi
        · have hget : ((lb.servers.set (lb.nextServerIndex % lb.servers.length)
              ((lb.servers.get ⟨lb.nextServerIndex % lb.servers.length, htgtlt⟩).addRequest
                (lb.requestQueue.getNextRequest).1).2).get ⟨mi, hmi'⟩) =
              ((lb.servers.get ⟨lb.nextServerIndex % lb.servers.length, htgtlt⟩).addRequest
                (lb.requestQueue.getNextRequest).1).2 := by
            subst heq
            exact List.get_set_eq _
          rw [hget, hsnd]
          refine ⟨hsrvt.1, hsrvt.2.1, ?_⟩
          show (lb.servers.get ⟨lb.nextServerIndex % lb.servers.length,
              htgtlt⟩).currentLoad + 1 = _
          rw [hload0, if_pos ⟨k, by omega, by rw [← htgtN]; exact heq⟩]
          omega
        · have hget : ((lb.servers.set (lb.nextServerIndex % lb.servers.length)
              ((lb.servers.get ⟨lb.nextServerIndex % lb.servers.length, htgtlt⟩).addRequest
                (lb.requestQueue.getNextRequest).1).2).get ⟨mi, hmi'⟩) =
              lb.servers.get ⟨mi, hmi⟩ :=
            List.get_set_ne heq hmi'
          rw [hget]
          obtain ⟨ht1, ht2, ht3⟩ := hsrv mi hmi
          refine ⟨ht1, ht2, ?_⟩
          rw [ht3]
          have hiff : (∃ j, j < k + 1 ∧ (c + j) % N = mi) ↔
              (∃ j, j < k ∧ (c + j) % N = mi) := by
            constructor
            · rintro ⟨j, hj, hje⟩
              by_cases hjk : j = k
              · exfalso
                apply heq
                rw [htgtN, ← hjk]
                exact hje
              · exact ⟨j, by omega, hje⟩
            · rintro ⟨j, hj, hje⟩
              exact ⟨j, by omega, hje⟩
          rw [if_congr hiff rfl rfl]

/-- C4: with `N ≥ 1` active zero-load servers of capacity at least 1 and
exactly `N` queued items, one call to `LoadBalancer::distributeRequests`
gives every server exactly one item and empties the admission queue,
whatever the rotation cursor's starting value. -/
theorem C4_round_robin_fairness (lb : LoadBalancer) (N : Nat) (hN : 1 ≤ N)
    (hlen : lb.servers.length = N)
    (hsrv : ∀ s ∈ lb.servers, s.isActive = true ∧ s.currentLoad = 0 ∧ 1 ≤ s.maxCapacity)
    (hq : lb.requestQueue.requestQueue.length = N) :
    (∀ s ∈ lb.distributeRequests.servers, s.currentLoad = 1) ∧
    lb.distributeRequests.requestQueue.requestQueue = [] ∧
    lb.distributeRequests.servers.length = N := by
  have hnempty : ¬(lb.requestQueue.isEmpty = true) := by
    unfold RequestQueue.isEmpty
    cases hqq : lb.requestQueue.requestQueue with
    | nil =>
        rw [hqq] at hq
        simp at hq
        omega
    | cons a l => simp
  unfold LoadBalancer.distributeRequests
  rw [if_neg hnempty]
  have hfuel : lb.servers.length * 2 = N + N := by
    rw [hlen]
    omega
  rw [hfuel]
  refine LoadBalancer.distributeLoop_fair N lb.nextServerIndex N 0 lb (by omega) hlen
    (by rw [Nat.add_zero]) hq ?_
  intro mi hmi
  obtain ⟨h1, h2, h3⟩ := hsrv _ (List.get_mem lb.servers mi hmi)
  have hno : ¬∃ j, j < 0 ∧ (lb.nextServerIndex + j) % N = mi := by
    rintro ⟨j, hj, _⟩
    omega
  exact ⟨h1, h3, by rw [h2, if_neg hno]⟩

/-- Concrete input for the C4 witness: two idle servers, two queued items,
cursor starting at 1. -/
def lbC4 : LoadBalancer :=
  { servers := [WebServer.mkServer 1 "192.168.1.1" 5, WebServer.mkServer 2 "192.168.1.2" 5],
    requestQueue := { requestQueue := [rqC9 21, rqC9 22], maxSize := 1000,
                      totalRequestsAdded := 2, totalRequestsRemoved := 0, blockedIPs := [] },
    nextServerIndex := 1, totalRequestsProcessed := 0, totalProcessingTime := 0,
    maxServers := 20, minServers := 1, loadThreshold := 4 / 5 }

/-- Witness for C4 with two servers, two items and cursor 1. -/
theorem C4_round_robin_fairness_witness :
    ((1 : Nat) ≤ 2 ∧ lbC4.servers.length = 2 ∧
     (∀ s ∈ lbC4.servers, s.isActive = true ∧ s.currentLoad = 0 ∧ 1 ≤ s.maxCapacity) ∧
     lbC4.requestQueue.requestQueue.length = 2) ∧
    ((∀ s ∈ lbC4.distributeRequests.servers, s.currentLoad = 1) ∧
     lbC4.distributeRequests.requestQueue.requestQueue = [] ∧
     lbC4.distributeRequests.servers.length = 2) :=
  ⟨⟨by decide, by decide, by decide, by decide⟩,
   C4_round_robin_fairness lbC4 2 (by decide) (by decide) (by decide) (by decide)⟩
